import Mathlib

/-!
# Verification of `httpstat` (`main.go`)

A shallow embedding in Lean 4 of the core logic of `httpstat`, a
command-line HTTP diagnostic client, together with theorems checking its
natural-language specification.  The embedding follows `main.go`:

* `Timing` / `msSince` / `PlainTrace` — the timing model populated by the
  `httptrace.ClientTrace` callbacks installed in `visit`;
* `headersLess` / `endtoend` — the header display comparator
  (`headers.Less`);
* `printTemplate` — the directional ASCII-template substitution engine;
* `goLoop` / `goVisit` — the request-cycle controller and redirect state
  machine of `visit` (the `-n` repeat loop and recursive redirect follow);
* `readResponseBody`, `readCACerts`, `parseURL`, `isRedirect` — the helper
  functions of the same names.

Go `int` values are modelled as `Int`; Go's integer division on
`time.Duration` truncates toward zero, modelled by `Int.tdiv`.  External
collaborators (the clock, the network, `net/url`, file I/O) are modelled as
explicit parameters.
-/

/-- The `Timing` struct of `main.go` (ten `int` millisecond fields), with
Go's zero value as default. -/
structure Timing where
  DNS : Int := 0
  TCP : Int := 0
  TLS : Int := 0
  Server : Int := 0
  Transfer : Int := 0
  Lookup : Int := 0
  Connect : Int := 0
  PreTransfer : Int := 0
  StartTransfer : Int := 0
  Total : Int := 0
deriving Repr, DecidableEq

/-- `msSince` of `main.go`: `int(time.Now().Sub(t) / time.Millisecond)`.
`t` and `now` are absolute clock readings in nanoseconds (`time.Time`);
the division of a `time.Duration` by `time.Millisecond` is Go integer
division, which truncates toward zero (`Int.tdiv`). -/
def msSince (t now : Int) : Int := (now - t).tdiv 1000000

/-- The `httptrace` callback timestamps observed during one successful
plaintext (`http`-scheme) exchange in `visit` (`main.go`).  `dns` and
`conn` are `none` when the corresponding callbacks do not fire (reused
pooled connection); the TLS handshake callbacks never fire on a plaintext
connection, so they have no timestamps here.  All times are absolute
nanosecond clock readings. -/
structure PlainTrace where
  tStart : Int
  dns : Option (Int × Int)
  conn : Option (Int × Int)
  tGotConn : Int
  tTTFB : Int
  tBodyDone : Int

/-- The `httptrace` contract for a successful exchange: callbacks fire in
lifecycle order, each at a clock reading no earlier than the previous one,
and name resolution only happens on a fresh connection (which then also
dials, so a firing `DNSDone` implies a firing `ConnectDone`). -/
def PlainTrace.WF (e : PlainTrace) : Prop :=
  0 ≤ e.tStart ∧
  (match e.dns with
   | some (s, d) => e.tStart ≤ s ∧ s ≤ d
   | none => True) ∧
  (match e.conn with
   | some (s, d) => e.tStart ≤ s ∧ s ≤ d ∧ d ≤ e.tGotConn
   | none => True) ∧
  (match e.dns, e.conn with
   | some (_, d), some (s2, _) => d ≤ s2
   | some _, none => False
   | none, _ => True) ∧
  e.tStart ≤ e.tGotConn ∧ e.tGotConn ≤ e.tTTFB ∧ e.tTTFB ≤ e.tBodyDone

/-- The `Timing` value assembled by the callbacks of `visit` for a
plaintext exchange, mirroring the assignments of `main.go`: fields start
at Go's zero value; `DNSDone` sets `DNS`/`Lookup`; `ConnectDone` sets
`TCP`/`Connect`; `GotConn` sets `PreTransfer`; `GotFirstResponseByte`
sets `Server`/`StartTransfer`; after the body is read, `Transfer` and
`Total` are set.  The TLS callbacks never run, so `TLS` keeps its zero
value. -/
def plainTiming (e : PlainTrace) : Timing :=
  let t0 : Timing := {}
  let t1 : Timing :=
    match e.dns with
    | some (s, d) => { t0 with DNS := msSince s d, Lookup := msSince e.tStart d }
    | none => t0
  let t2 : Timing :=
    match e.conn with
    | some (s, d) => { t1 with TCP := msSince s d, Connect := msSince e.tStart d }
    | none => t1
  { t2 with
    PreTransfer := msSince e.tStart e.tGotConn,
    Server := msSince e.tGotConn e.tTTFB,
    StartTransfer := msSince e.tStart e.tTTFB,
    Transfer := msSince e.tTTFB e.tBodyDone,
    Total := msSince e.tStart e.tBodyDone }

theorem msSince_nonneg {t now : Int} (h : t ≤ now) : 0 ≤ msSince t now :=
  Int.tdiv_nonneg (by omega) (by norm_num)

theorem msSince_mono {t a b : Int} (h0 : t ≤ a) (h : a ≤ b) :
    msSince t a ≤ msSince t b := by
  unfold msSince
  rw [Int.tdiv_eq_ediv (by omega) (by norm_num),
    Int.tdiv_eq_ediv (by omega) (by norm_num)]
  exact Int.ediv_le_ediv (by norm_num) (by omega)

/-- C1: for every successful plaintext exchange the resulting `Timing` has
`TLS = 0`, its cumulative start-relative timestamps are non-negative, and
`Lookup ≤ Connect ≤ PreTransfer ≤ StartTransfer ≤ Total`. -/
theorem plaintext_timing_invariants (e : PlainTrace) (h : e.WF) :
    (plainTiming e).TLS = 0 ∧
    0 ≤ (plainTiming e).Lookup ∧
    (plainTiming e).Lookup ≤ (plainTiming e).Connect ∧
    (plainTiming e).Connect ≤ (plainTiming e).PreTransfer ∧
    (plainTiming e).PreTransfer ≤ (plainTiming e).StartTransfer ∧
    (plainTiming e).StartTransfer ≤ (plainTiming e).Total := by
  obtain ⟨t0, dns, conn, tg, tf, tb⟩ := e
  obtain ⟨h0, hdns, hconn, hdc, hg, hf, hb⟩ := h
  rcases dns with _ | ⟨s, d⟩ <;> rcases conn with _ | ⟨s2, d2⟩ <;>
    dsimp only [plainTiming] <;> dsimp only at hdns hconn hdc
  · exact ⟨rfl, le_refl 0, le_refl 0, msSince_nonneg hg,
      msSince_mono hg hf, msSince_mono (le_trans hg hf) hb⟩
  · obtain ⟨hc1, hc2, hc3⟩ := hconn
    exact ⟨rfl, le_refl 0,
      msSince_nonneg (le_trans hc1 hc2),
      msSince_mono (le_trans hc1 hc2) hc3,
      msSince_mono hg hf, msSince_mono (le_trans hg hf) hb⟩
  · obtain ⟨hd1, hd2⟩ := hdns
    obtain ⟨hc1, hc2, hc3⟩ := hconn
    exact ⟨rfl,
      msSince_nonneg (le_trans hd1 hd2),
      msSince_mono (le_trans hd1 hd2) (le_trans hdc hc2),
      msSince_mono (le_trans hc1 hc2) hc3,
      msSince_mono hg hf, msSince_mono (le_trans hg hf) hb⟩

/-- A concrete plaintext trace used to witness C1. -/
def c1trace : PlainTrace :=
  ⟨0, some (1000000, 3000000), some (3000000, 9000000),
    12000000, 50000000, 150000000⟩

/-- Witness for C1 on a concrete plaintext trace. -/
theorem plaintext_timing_invariants_witness :
    c1trace.WF ∧
    ((plainTiming c1trace).TLS = 0 ∧
     0 ≤ (plainTiming c1trace).Lookup ∧
     (plainTiming c1trace).Lookup ≤ (plainTiming c1trace).Connect ∧
     (plainTiming c1trace).Connect ≤ (plainTiming c1trace).PreTransfer ∧
     (plainTiming c1trace).PreTransfer ≤ (plainTiming c1trace).StartTransfer ∧
     (plainTiming c1trace).StartTransfer ≤ (plainTiming c1trace).Total) :=
  ⟨by norm_num [PlainTrace.WF, c1trace],
   plaintext_timing_invariants c1trace (by norm_num [PlainTrace.WF, c1trace])⟩

/-- Byte-wise lexicographic strict order on strings, modelling Go's `a < b`
on `string` (header names are ASCII, so comparing `Char` code points agrees
with Go's byte-wise comparison). -/
def lexLt : List Char → List Char → Bool
  | [], [] => false
  | [], _ :: _ => true
  | _ :: _, [] => false
  | a :: as, b :: bs => decide (a < b) || (decide (a = b) && lexLt as bs)

theorem lexLt_irrefl (l : List Char) : lexLt l l = false := by
  induction l with
  | nil => rfl
  | cons x xs ih => simp [lexLt, ih]

theorem lexLt_trans {a b c : List Char} (h1 : lexLt a b = true)
    (h2 : lexLt b c = true) : lexLt a c = true := by
  induction a generalizing b c with
  | nil =>
    cases b with
    | nil => exact absurd h1 (by simp [lexLt])
    | cons y ys =>
      cases c with
      | nil => exact absurd h2 (by simp [lexLt])
      | cons z zs => simp [lexLt]
  | cons x xs ih =>
    cases b with
    | nil => exact absurd h1 (by simp [lexLt])
    | cons y ys =>
      cases c with
      | nil => exact absurd h2 (by simp [lexLt])
      | cons z zs =>
        simp only [lexLt, Bool.or_eq_true, Bool.and_eq_true,
          decide_eq_true_eq] at h1 h2 ⊢
        rcases h1 with h1 | ⟨rfl, h1⟩ <;> rcases h2 with h2 | ⟨rfl, h2⟩
        · exact Or.inl (lt_trans h1 h2)
        · exact Or.inl h1
        · exact Or.inl h2
        · exact Or.inr ⟨rfl, ih h1 h2⟩

theorem lexLt_asymm {a b : List Char} (h1 : lexLt a b = true)
    (h2 : lexLt b a = true) : False := by
  induction a generalizing b with
  | nil =>
    cases b with
    | nil => exact absurd h1 (by simp [lexLt])
    | cons y ys => exact absurd h2 (by simp [lexLt])
  | cons x xs ih =>
    cases b with
    | nil => exact absurd h1 (by simp [lexLt])
    | cons y ys =>
      simp only [lexLt, Bool.or_eq_true, Bool.and_eq_true,
        decide_eq_true_eq] at h1 h2
      rcases h1 with h1 | ⟨rfl, h1⟩ <;> rcases h2 with h2 | ⟨h2e, h2⟩
      · exact absurd h2 (not_lt_of_lt h1)
      · exact absurd (h2e ▸ h1) (lt_irrefl x)
      · exact absurd h2 (lt_irrefl x)
      · exact ih h1 h2

theorem lexLt_connex {a b : List Char} (h : a ≠ b) :
    lexLt a b = true ∨ lexLt b a = true := by
  induction a generalizing b with
  | nil =>
    cases b with
    | nil => exact absurd rfl h
    | cons y ys => exact Or.inl (by simp [lexLt])
  | cons x xs ih =>
    cases b with
    | nil => exact Or.inr (by simp [lexLt])
    | cons y ys =>
      rcases lt_trichotomy x y with hxy | rfl | hxy
      · exact Or.inl (by simp [lexLt, hxy])
      · have hys : xs ≠ ys := fun he => h (by rw [he])
        rcases ih hys with h1 | h1
        · exact Or.inl (by simp [lexLt, h1])
        · exact Or.inr (by simp [lexLt, h1])
      · exact Or.inr (by simp [lexLt, hxy])

/-- The `endtoend` classifier inside `headers.Less` of `main.go`: `false`
exactly on the eight RFC 2616 hop-by-hop header names. -/
def endtoend (n : String) : Bool :=
  match n with
  | "Connection" => false
  | "Keep-Alive" => false
  | "Proxy-Authenticate" => false
  | "Proxy-Authorization" => false
  | "TE" => false
  | "Trailers" => false
  | "Transfer-Encoding" => false
  | "Upgrade" => false
  | _ => true

/-- `headers.Less` of `main.go`: `Server` sorts first, then end-to-end
before hop-by-hop, then byte-wise lexicographic within a class. -/
def headersLess (a b : String) : Bool :=
  if a = "Server" then true
  else if b = "Server" then false
  else if endtoend a = endtoend b then lexLt a.data b.data
  else endtoend a

/-- The non-strict display order induced by the `headers.Less` comparator. -/
abbrev hdrLe (a b : String) : Prop := headersLess a b = true ∨ a = b

theorem headersLess_trans {a b c : String} (h1 : headersLess a b = true)
    (h2 : headersLess b c = true) : headersLess a c = true := by
  by_cases ha : a = "Server"
  · simp [headersLess, ha]
  · by_cases hb : b = "Server"
    · simp [headersLess, ha, hb] at h1
    · by_cases hc : c = "Server"
      · simp [headersLess, hb, hc] at h2
      · simp only [headersLess, if_neg ha, if_neg hb, if_neg hc] at h1 h2 ⊢
        cases hea : endtoend a <;> cases heb : endtoend b <;>
          cases hec : endtoend c <;>
          simp [hea, heb, hec] at h1 h2 ⊢ <;>
          exact lexLt_trans h1 h2

theorem headersLess_antisymm {a b : String} (h1 : headersLess a b = true)
    (h2 : headersLess b a = true) : a = b := by
  by_contra hne
  by_cases ha : a = "Server"
  · have hb : ¬(b = "Server") := fun h => hne (by rw [ha, h])
    rw [ha] at h2
    simp [headersLess, hb] at h2
  · by_cases hb : b = "Server"
    · rw [hb] at h1
      simp [headersLess, ha] at h1
    · simp only [headersLess, if_neg ha, if_neg hb] at h1 h2
      cases hea : endtoend a <;> cases heb : endtoend b <;>
        simp [hea, heb] at h1 h2
      · exact lexLt_asymm h1 h2
      · exact lexLt_asymm h1 h2

theorem headersLess_total {a b : String} (h : a ≠ b) :
    headersLess a b = true ∨ headersLess b a = true := by
  have hdata : a.data ≠ b.data := by
    intro hd
    exact h (by cases a; cases b; simp_all)
  by_cases ha : a = "Server"
  · exact Or.inl (by simp [headersLess, ha])
  · by_cases hb : b = "Server"
    · exact Or.inr (by simp [headersLess, hb])
    · simp only [headersLess, if_neg ha, if_neg hb]
      cases hea : endtoend a <;> cases heb : endtoend b <;> simp
      · exact lexLt_connex hdata
      · exact lexLt_connex hdata

/-- C4: the header-display comparator defines a total order (reflexive,
antisymmetric, transitive, total) on header names; `Server` sorts before
every other name; among the remaining names the eight hop-by-hop names
sort after all end-to-end names; within each class names compare
byte-wise lexicographically. -/
theorem headers_Less_total_order :
    (∀ a : String, hdrLe a a) ∧
    (∀ a b : String, hdrLe a b → hdrLe b a → a = b) ∧
    (∀ a b c : String, hdrLe a b → hdrLe b c → hdrLe a c) ∧
    (∀ a b : String, hdrLe a b ∨ hdrLe b a) ∧
    (∀ b : String, hdrLe ("Server") b) ∧
    (∀ a b : String, endtoend a = true → endtoend b = false →
      headersLess a b = true) ∧
    (∀ a b : String, a ≠ "Server" → b ≠ "Server" →
      endtoend a = endtoend b →
      (headersLess a b = true ↔ lexLt a.data b.data = true)) := by
  refine ⟨fun a => Or.inr rfl, ?_, ?_, ?_, ?_, ?_, ?_⟩
  · rintro a b (h1 | rfl) (h2 | h2)
    · exact headersLess_antisymm h1 h2
    · exact h2.symm
    · rfl
    · rfl
  · rintro a b c (h1 | rfl) (h2 | rfl)
    · exact Or.inl (headersLess_trans h1 h2)
    · exact Or.inl h1
    · exact Or.inl h2
    · exact Or.inr rfl
  · intro a b
    by_cases h : a = b
    · exact Or.inl (Or.inr h)
    · rcases headersLess_total h with h1 | h1
      · exact Or.inl (Or.inl h1)
      · exact Or.inr (Or.inl h1)
  · intro b
    exact Or.inl (by simp [headersLess])
  · intro a b hea heb
    by_cases ha : a = "Server"
    · simp [headersLess, ha]
    · have hb : ¬(b = "Server") := by
        intro h
        rw [h] at heb
        exact absurd heb (by decide)
      simp [headersLess, ha, hb, hea, heb]
  · intro a b ha hb he
    simp only [headersLess, if_neg ha, if_neg hb, if_pos he]

/-- Witness for C4: the transitivity component applied at concrete header
names. -/
theorem headers_Less_total_order_witness :
    hdrLe ("Accept") ("Date") ∧ hdrLe ("Date") ("Upgrade") ∧
    hdrLe ("Accept") ("Upgrade") :=
  ⟨by decide, by decide,
   headers_Less_total_order.2.2.1 ("Accept") ("Date") ("Upgrade")
     (by decide) (by decide)⟩

/-- `httpsTemplate` of `main.go`: the encrypted-scheme ASCII template. -/
def httpsTemplate : String :=
  "  DNS Lookup   TCP Connection   TLS Handshake   Server Processing   Content Transfer\n" ++
  "[    %>DNS  |         %>TCP  |        %>TLS  |         %>Server  |      %>Transfer  ]\n" ++
  "            |                |               |                   |                  |\n" ++
  "   namelookup:%<Lookup       |               |                   |                  |\n" ++
  "                       connect:%<Connect     |                   |                  |\n" ++
  "                                   pretransfer:%<PreTransfer     |                  |\n" ++
  "                                                     starttransfer:%<StartTransfer  |\n" ++
  "                                                                                total:%<Total\n"

/-- `httpTemplate` of `main.go`: the plaintext-scheme ASCII template. -/
def httpTemplate : String :=
  "  DNS Lookup   TCP Connection   Server Processing   Content Transfer\n" ++
  "[    %>DNS  |         %>TCP  |         %>Server  |      %>Transfer  ]\n" ++
  "            |                |                   |                  |\n" ++
  "   namelookup:%<Lookup       |                   |                  |\n" ++
  "                       connect:%<Connect         |                  |\n" ++
  "                                     starttransfer:%<StartTransfer  |\n" ++
  "                                                                total:%<Total\n"

/-- `reflect.ValueOf(vars).FieldByName(name)` restricted to the `Timing`
struct, as `printTemplate` uses it; `none` models an invalid field name,
which panics in Go. -/
def fieldByName (t : Timing) (name : String) : Option Int :=
  match name with
  | "DNS" => some t.DNS
  | "TCP" => some t.TCP
  | "TLS" => some t.TLS
  | "Server" => some t.Server
  | "Transfer" => some t.Transfer
  | "Lookup" => some t.Lookup
  | "Connect" => some t.Connect
  | "PreTransfer" => some t.PreTransfer
  | "StartTransfer" => some t.StartTransfer
  | "Total" => some t.Total
  | _ => none

/-- The letter test of `printTemplate`'s scan loop:
`(b[end] >= 'a' && b[end] <= 'z') || (b[end] >= 'A' && b[end] <= 'Z')`. -/
def isTemplateLetter (c : Char) : Bool :=
  (decide ('a' ≤ c) && decide (c ≤ 'z')) ||
  (decide ('A' ≤ c) && decide (c ≤ 'Z'))

/-- The `end` position of a placeholder name: advance from `p` while the
byte is a letter (the scan loop of `printTemplate`). -/
def scanEnd (b : List Char) (p : Nat) : Nat :=
  p + ((b.drop p).takeWhile isTemplateLetter).length

/-- `copy(b[idx:stop], bytes.Repeat([]byte\x7b' '\x7d, stop-idx))`:
overwrite the span `[idx, stop)` with spaces. -/
def spaceOut (b : List Char) (idx stop : Nat) : List Char :=
  b.take idx ++ List.replicate (stop - idx) ' ' ++ b.drop stop

/-- One iteration of `printTemplate`'s loop body at the position `idx` of
the leading `'%'`: read the direction byte, scan the field name, blank the
placeholder span, format the looked-up value as `<int>ms`, and splice it
ending at the placeholder's end (`'>'`) or starting at its start (`'<'`).
`none` models the Go panics (invalid field name, invalid direction byte,
out-of-range slice).  Go wraps the value in ANSI color codes after taking
its length; the model keeps the visible text only. -/
def substStep (t : Timing) (b : List Char) (idx : Nat) : Option (List Char) :=
  match b[idx+1]? with
  | none => none
  | some dir =>
    let stop := scanEnd b (idx+2)
    let vnam : String := ⟨(b.drop (idx+2)).take (stop - (idx+2))⟩
    let b1 := spaceOut b idx stop
    match fieldByName t vnam with
    | none => none
    | some val =>
      let v := (toString val ++ "ms").data
      let vlen := v.length
      match dir with
      | '>' =>
        if vlen ≤ stop then some (b1.take (stop - vlen) ++ v ++ b1.drop stop)
        else none
      | '<' =>
        if idx + vlen ≤ b1.length then
          some (b1.take idx ++ v ++ b1.drop (idx + vlen))
        else none
      | _ => none

/-- The loop of `printTemplate`: repeatedly find the first `'%'` in the
buffer and substitute.  Each step of the Go loop removes the first `'%'`,
so the recursion is bounded; `fuel` makes that bound explicit, and `none`
on exhaustion never occurs for the two built-in templates. -/
def printTemplateLoop (t : Timing) : Nat → List Char → Option (List Char)
  | 0, _ => none
  | fuel+1, b =>
    match List.findIdx? (fun c => c == '%') b with
    | none => some b
    | some idx =>
      match substStep t b idx with
      | none => none
      | some b2 => printTemplateLoop t fuel b2

/-- `printTemplate` of `main.go`: render a template against a `Timing`
value.  `none` models a panic. -/
def printTemplate (tmpl : String) (vars : Timing) : Option String :=
  (printTemplateLoop vars (tmpl.length + 1) tmpl.data).map (fun l => ⟨l⟩)

/-- The visible numeric tokens of a rendered template, left to right: the
maximal digit runs immediately followed by the unit marker `ms`. -/
def numTokens : Nat → List Char → List String
  | 0, _ => []
  | _, [] => []
  | fuel+1, c :: rest =>
    if c.isDigit then
      let ds := (c :: rest).takeWhile Char.isDigit
      let rest2 := (c :: rest).dropWhile Char.isDigit
      match rest2 with
      | 'm' :: 's' :: rest3 => (⟨ds ++ ['m', 's']⟩ : String) :: numTokens fuel rest3
      | _ => numTokens fuel rest2
    else numTokens fuel rest

/-- The visible numeric tokens of a string. -/
def numTokensOf (s : String) : List String := numTokens s.length s.data

/-- The fixed literal `Timing` of the template round-trip property. -/
def c2timing : Timing :=
  { DNS := 5, TCP := 10, TLS := 20, Server := 50, Transfer := 100,
    Lookup := 5, Connect := 15, PreTransfer := 35, StartTransfer := 85,
    Total := 185 }

/-- The full rendering of `httpsTemplate` at `c2timing`: each `%>Name`
value ends exactly at its placeholder's end position, each `%<Name` value
starts exactly at its placeholder's start position, and the rest of each
placeholder span is the spaces it was overwritten with. -/
def c2expected : String :=
  "  DNS Lookup   TCP Connection   TLS Handshake   Server Processing   Content Transfer\n" ++
  "[      5ms  |          10ms  |         20ms  |             50ms  |           100ms  ]\n" ++
  "            |                |               |                   |                  |\n" ++
  "   namelookup:5ms            |               |                   |                  |\n" ++
  "                       connect:15ms          |                   |                  |\n" ++
  "                                   pretransfer:35ms              |                  |\n" ++
  "                                                     starttransfer:85ms             |\n" ++
  "                                                                                total:185ms  \n"

set_option maxRecDepth 100000 in
/-- C2: rendering the encrypted-scheme template with the fixed timing
values `dns=5, tcp=10, tls=20, server=50, transfer=100, lookup=5,
connect=15, preTransfer=35, startTransfer=85, total=185` succeeds (no
panic), produces exactly `c2expected` — whose placeholder spans are
space-filled with each value anchored at the `%>`-end or `%<`-start
position — and its visible numeric tokens, left to right, are exactly
`5ms, 10ms, 20ms, 50ms, 100ms, 5ms, 15ms, 35ms, 85ms, 185ms`. -/
theorem https_template_roundtrip :
    printTemplate httpsTemplate c2timing = some c2expected ∧
    (printTemplate httpsTemplate c2timing).map numTokensOf =
      some ["5ms", "10ms", "20ms", "50ms", "100ms",
            "5ms", "15ms", "35ms", "85ms", "185ms"] := by
  constructor <;> decide

/-- The response kinds `visit` distinguishes after `client.Do`: a
non-redirect response, a 30x response whose `Location` resolution fails
with `http.ErrNoLocation`, or a 30x response redirecting to `loc`. -/
inductive RespKind where
  | plain
  | redirectNoLoc
  | redirectTo (loc : String)
deriving DecidableEq, Repr

/-- Observable events of an execution of `visit`:
`build u` is `newRequest` (before the repeat loop), `delay` is
`time.Sleep(requestDelay)` (only when `i > 0`), `issue u` is `client.Do`,
`inc` is `redirectsFollowed++`, `fatalMax` is the
`log.Fatalf("maximum number of redirects ...")` call. -/
inductive Ev where
  | build (u : String)
  | delay
  | issue (u : String)
  | inc
  | fatalMax
deriving DecidableEq, Repr

/-- How an invocation of `visit` ends: the repeat loop finished or a 30x
had no `Location` (`returned`), `log.Fatalf` on exceeding `maxRedirects`
(`fatal`), or the artificial fuel of the model ran out (`outOfFuel`). -/
inductive VisitRes where
  | returned
  | fatal
  | outOfFuel
deriving DecidableEq, Repr

/-- `maxRedirects` of `main.go`. -/
def maxRedirects : Nat := 10

/-- The configuration `visit` reads: the `-L` flag and the `-n` count. -/
structure VisitCfg where
  followRedirects : Bool
  numRequests : Nat

/-- Number of occurrences of the event `e` in a trace. -/
def countEv (e : Ev) : List Ev → Nat
  | [] => 0
  | x :: xs => (if x = e then 1 else 0) + countEv e xs

theorem countEv_append (e : Ev) (l1 l2 : List Ev) :
    countEv e (l1 ++ l2) = countEv e l1 + countEv e l2 := by
  induction l1 with
  | nil => simp [countEv]
  | cons x xs ih => simp [countEv, ih]; omega

/-- The repeat loop of `visit` (`for i := 0; i < numRequests; i++`),
with `remaining` iterations left and `first` true exactly when `i = 0`.
`env` gives the response the network returns for a target URL; `visitRec`
is the recursive `visit(loc)` call; `rf` is the process-wide
`redirectsFollowed` counter, threaded through (never reset).  The result
is the event trace, the final counter, and how the call ended. -/
def goLoop (env : String → RespKind) (cfg : VisitCfg)
    (visitRec : String → Nat → List Ev × Nat × VisitRes) :
    Nat → Bool → String → Nat → List Ev × Nat × VisitRes
  | 0, _, _, rf => ([], rf, VisitRes.returned)
  | r+1, first, u, rf =>
    if cfg.followRedirects then
      match env u with
      | RespKind.plain =>
        ((if first then [Ev.issue u] else [Ev.delay, Ev.issue u]) ++
          (goLoop env cfg visitRec r false u rf).1,
         (goLoop env cfg visitRec r false u rf).2)
      | RespKind.redirectNoLoc =>
        ((if first then [Ev.issue u] else [Ev.delay, Ev.issue u]), rf,
         VisitRes.returned)
      | RespKind.redirectTo loc =>
        if maxRedirects < rf + 1 then
          ((if first then [Ev.issue u] else [Ev.delay, Ev.issue u]) ++
            [Ev.inc, Ev.fatalMax], rf + 1, VisitRes.fatal)
        else
          match (visitRec loc (rf + 1)).2.2 with
          | VisitRes.returned =>
            ((if first then [Ev.issue u] else [Ev.delay, Ev.issue u]) ++
              Ev.inc :: (visitRec loc (rf + 1)).1 ++
              (goLoop env cfg visitRec r false u (visitRec loc (rf + 1)).2.1).1,
             (goLoop env cfg visitRec r false u (visitRec loc (rf + 1)).2.1).2)
          | res =>
            ((if first then [Ev.issue u] else [Ev.delay, Ev.issue u]) ++
              Ev.inc :: (visitRec loc (rf + 1)).1,
             (visitRec loc (rf + 1)).2.1, res)
    else
      ((if first then [Ev.issue u] else [Ev.delay, Ev.issue u]) ++
        (goLoop env cfg visitRec r false u rf).1,
       (goLoop env cfg visitRec r false u rf).2)

/-- `visit` of `main.go`: build the request once, then run the repeat
loop; on a followed redirect the loop re-invokes `visit` on the new
target (modelled with explicit recursion fuel, spent only on redirect
recursion, which the counter ceiling bounds in the real program). -/
def goVisit (env : String → RespKind) (cfg : VisitCfg) :
    Nat → String → Nat → List Ev × Nat × VisitRes
  | 0, _, rf => ([], rf, VisitRes.outOfFuel)
  | f+1, u, rf =>
    (Ev.build u ::
      (goLoop env cfg (goVisit env cfg f) cfg.numRequests true u rf).1,
     (goLoop env cfg (goVisit env cfg f) cfg.numRequests true u rf).2)

theorem goLoop_rf (env : String → RespKind) (cfg : VisitCfg)
    (visitRec : String → Nat → List Ev × Nat × VisitRes)
    (hrec : ∀ u rf, (visitRec u rf).2.1 =
      rf + countEv Ev.inc (visitRec u rf).1) :
    ∀ r first u rf, (goLoop env cfg visitRec r first u rf).2.1 =
      rf + countEv Ev.inc (goLoop env cfg visitRec r first u rf).1 := by
  intro r
  induction r with
  | zero => intro first u rf; simp [goLoop, countEv]
  | succ r ih =>
    intro first u rf
    have hpre : ∀ v : String, countEv Ev.inc
        (if first then [Ev.issue v] else [Ev.delay, Ev.issue v]) = 0 := by
      intro v; cases first <;> simp [countEv]
    cases hf : cfg.followRedirects
    · simp only [goLoop, hf, Bool.false_eq_true, if_false, countEv_append,
        hpre]
      rw [ih]
      omega
    · cases henv : env u with
      | plain =>
        simp only [goLoop, hf, if_true, henv, countEv_append, hpre]
        rw [ih]
        omega
      | redirectNoLoc =>
        simp only [goLoop, hf, if_true, henv, hpre]
        omega
      | redirectTo loc =>
        by_cases hmax : maxRedirects < rf + 1
        · simp only [goLoop, hf, if_true, henv, if_pos hmax, countEv_append,
            hpre, countEv]
          simp
        · cases hres : (visitRec loc (rf + 1)).2.2 with
          | returned =>
            simp only [goLoop, hf, if_true, henv, if_neg hmax, hres,
              countEv_append, hpre, countEv, if_neg (by simp : ¬(Ev.inc = Ev.issue u))]
            have h1 := hrec loc (rf + 1)
            have h2 := ih false u ((visitRec loc (rf + 1)).2.1)
            rw [h2, h1]
            simp [countEv]
            omega
          | fatal =>
            simp only [goLoop, hf, if_true, henv, if_neg hmax, hres,
              countEv_append, hpre, countEv]
            have h1 := hrec loc (rf + 1)
            rw [h1]
            simp
            omega
          | outOfFuel =>
            simp only [goLoop, hf, if_true, henv, if_neg hmax, hres,
              countEv_append, hpre, countEv]
            have h1 := hrec loc (rf + 1)
            rw [h1]
            simp
            omega

theorem goVisit_rf (env : String → RespKind) (cfg : VisitCfg) :
    ∀ fuel u rf, (goVisit env cfg fuel u rf).2.1 =
      rf + countEv Ev.inc (goVisit env cfg fuel u rf).1 := by
  intro fuel
  induction fuel with
  | zero => intro u rf; simp [goVisit, countEv]
  | succ f ih =>
    intro u rf
    simp only [goVisit, countEv]
    have h := goLoop_rf env cfg (goVisit env cfg f) ih cfg.numRequests true u rf
    simp only [show (Ev.build u = Ev.inc) = False by simp, if_false]
    omega

/-- A network where every target responds with a redirect to `t`. -/
def c3env : String → RespKind := fun _ => RespKind.redirectTo ("t")

/-- The ceiling scenario: every response is a redirect, `-L` set, `-n 1`,
counter starting at `0`, ample fuel. -/
def c3run : List Ev × Nat × VisitRes := goVisit c3env ⟨true, 1⟩ 20 ("u") 0

/-- C3: the shared redirect counter equals its initial value plus the
number of `redirectsFollowed++` events in the trace — it is only ever
incremented, once per followed redirect, and never reset anywhere in the
repeat loop or the recursion (first conjunct, for every environment,
configuration, fuel, start URL and start counter).  In the ceiling
scenario the run goes fatal with the counter at 11: the first request
plus ten followed redirects give 11 `issue` events, and the 11th redirect
aborts fatally — `fatalMax` is the last event, so no request to the new
target is ever issued after the final increment. -/
theorem redirect_counter_law :
    (∀ (env : String → RespKind) (cfg : VisitCfg) (fuel : Nat) (u : String)
      (rf : Nat),
      (goVisit env cfg fuel u rf).2.1 =
        rf + countEv Ev.inc (goVisit env cfg fuel u rf).1) ∧
    c3run.2.2 = VisitRes.fatal ∧
    c3run.2.1 = 11 ∧
    countEv Ev.inc c3run.1 = 11 ∧
    countEv (Ev.issue ("t")) c3run.1 = 10 ∧
    countEv (Ev.issue ("u")) c3run.1 = 1 ∧
    c3run.1.getLast? = some Ev.fatalMax :=
  ⟨fun env cfg => goVisit_rf env cfg, by decide, by decide, by decide,
   by decide, by decide, by decide⟩

/-- The event trace of `visit`'s repeat loop when no iteration follows a
redirect (`-L` unset, or the responses are not 30x): one `client.Do` per
iteration, with the inter-request `delay` before every iteration except
the first. -/
def plainIter : Nat → Bool → String → List Ev
  | 0, _, _ => []
  | r+1, first, u =>
    (if first then [Ev.issue u] else [Ev.delay, Ev.issue u]) ++
      plainIter r false u

theorem goLoop_plain (env : String → RespKind) (cfg : VisitCfg)
    (visitRec : String → Nat → List Ev × Nat × VisitRes) (u : String)
    (h : cfg.followRedirects = false ∨ env u = RespKind.plain) :
    ∀ r first rf, goLoop env cfg visitRec r first u rf =
      (plainIter r first u, rf, VisitRes.returned) := by
  intro r
  induction r with
  | zero => intro first rf; simp [goLoop, plainIter]
  | succ r ih =>
    intro first rf
    rcases h with hf | henv
    · simp [goLoop, hf, plainIter, ih]
    · cases hf2 : cfg.followRedirects <;>
        simp [goLoop, hf2, henv, plainIter, ih]

theorem goVisit_plain (env : String → RespKind) (cfg : VisitCfg)
    (fuel : Nat) (u : String) (rf : Nat)
    (h : cfg.followRedirects = false ∨ env u = RespKind.plain) :
    goVisit env cfg (fuel+1) u rf =
      (Ev.build u :: plainIter cfg.numRequests true u, rf,
       VisitRes.returned) := by
  simp [goVisit, goLoop_plain env cfg (goVisit env cfg fuel) u h]

theorem plainIter_count_build (u v : String) :
    ∀ r first, countEv (Ev.build v) (plainIter r first u) = 0 := by
  intro r
  induction r with
  | zero => intro first; simp [plainIter, countEv]
  | succ r ih => intro first; cases first <;>
      simp [plainIter, countEv_append, countEv, ih]

theorem plainIter_count_inc (u : String) :
    ∀ r first, countEv Ev.inc (plainIter r first u) = 0 := by
  intro r
  induction r with
  | zero => intro first; simp [plainIter, countEv]
  | succ r ih => intro first; cases first <;>
      simp [plainIter, countEv_append, countEv, ih]

theorem plainIter_count_issue (u : String) :
    ∀ r first, countEv (Ev.issue u) (plainIter r first u) = r := by
  intro r
  induction r with
  | zero => intro first; simp [plainIter, countEv]
  | succ r ih => intro first; cases first <;>
      simp [plainIter, countEv_append, countEv, ih] <;> omega

theorem plainIter_count_issue_ne (u v : String) (h : ¬ (v = u)) :
    ∀ r first, countEv (Ev.issue v) (plainIter r first u) = 0 := by
  have huv : ¬ (u = v) := fun he => h he.symm
  intro r
  induction r with
  | zero => intro first; simp [plainIter, countEv]
  | succ r ih => intro first; cases first <;>
      simp [plainIter, countEv_append, countEv, ih, huv]

theorem plainIter_count_delay (u : String) :
    ∀ r first, countEv Ev.delay (plainIter r first u) =
      if first then r - 1 else r := by
  intro r
  induction r with
  | zero => intro first; cases first <;> simp [plainIter, countEv]
  | succ r ih => intro first; cases first <;>
      simp [plainIter, countEv_append, countEv, ih] <;> omega

/-- The plain-response run with repeat count 2 that refutes C9's
per-iteration request build. -/
def c9run : List Ev × Nat × VisitRes :=
  goVisit (fun _ => RespKind.plain) ⟨false, 2⟩ 5 ("u") 0

/-- Counterexample to C9 as stated: with `-n 2` the trace of a run holds
two `client.Do` events but only one `newRequest` event — the request is
not built at the start of each iteration (that would give two), it is
built once before the loop. -/
theorem per_iteration_build_false :
    c9run.1 = [Ev.build ("u"), Ev.issue ("u"), Ev.delay, Ev.issue ("u")] ∧
    countEv (Ev.issue ("u")) c9run.1 = 2 ∧
    countEv (Ev.build ("u")) c9run.1 = 1 ∧
    ¬ countEv (Ev.build ("u")) c9run.1 = 2 :=
  ⟨by decide, by decide, by decide, by decide⟩

/-- C9 amended: the controller performs `numRequests` iterations (one
`client.Do` each) with the configurable delay before every iteration
except the first, and the request is built exactly once per `visit`
invocation, before the repeat loop (each iteration only re-attaches a
fresh trace to it). -/
theorem repeat_loop_shape (env : String → RespKind) (cfg : VisitCfg)
    (fuel : Nat) (u : String) (rf : Nat)
    (h : cfg.followRedirects = false ∨ env u = RespKind.plain) :
    goVisit env cfg (fuel+1) u rf =
      (Ev.build u :: plainIter cfg.numRequests true u, rf,
       VisitRes.returned) ∧
    countEv (Ev.build u) (Ev.build u :: plainIter cfg.numRequests true u) = 1 ∧
    countEv (Ev.issue u) (Ev.build u :: plainIter cfg.numRequests true u) =
      cfg.numRequests ∧
    countEv Ev.delay (Ev.build u :: plainIter cfg.numRequests true u) =
      cfg.numRequests - 1 := by
  refine ⟨goVisit_plain env cfg fuel u rf h, ?_, ?_, ?_⟩
  · simp [countEv, plainIter_count_build]
  · simp [countEv, plainIter_count_issue]
  · simp [countEv, plainIter_count_delay]

/-- Witness for C9's amended theorem at a concrete configuration. -/
theorem repeat_loop_shape_witness :
    goVisit (fun _ => RespKind.plain) ⟨false, 3⟩ 1 ("w") 0 =
      (Ev.build ("w") :: plainIter 3 true ("w"), 0, VisitRes.returned) ∧
    countEv (Ev.build ("w")) (Ev.build ("w") :: plainIter 3 true ("w")) = 1 ∧
    countEv (Ev.issue ("w")) (Ev.build ("w") :: plainIter 3 true ("w")) = 3 ∧
    countEv Ev.delay (Ev.build ("w") :: plainIter 3 true ("w")) = 3 - 1 :=
  repeat_loop_shape (fun _ => RespKind.plain) ⟨false, 3⟩ 0 ("w") 0
    (Or.inl rfl)

/-- The network of the redirect-repeat scenario: the start target `u0`
always responds with a redirect to the fixed target `T`; every other
target responds plainly. -/
def c10env (u0 T : String) : String → RespKind :=
  fun s => if s = u0 then RespKind.redirectTo T else RespKind.plain

/-- Per-iteration trace of the top-level repeat loop in the
redirect-repeat scenario: issue `u0`, increment the counter, recursively
run the whole controller against `T` (one `build` plus `n` exchanges with
delays between them), then continue with the next top-level iteration. -/
def redirTrace (n : Nat) (T u0 : String) : Nat → Bool → List Ev
  | 0, _ => []
  | r+1, first =>
    (if first then [Ev.issue u0] else [Ev.delay, Ev.issue u0]) ++
      (Ev.inc :: Ev.build T :: plainIter n true T) ++
      redirTrace n T u0 r false

theorem goLoop_redir (u0 T : String) (hne : ¬ (T = u0)) (n : Nat) :
    ∀ r first rf, rf + r ≤ maxRedirects →
      goLoop (c10env u0 T) ⟨true, n⟩ (goVisit (c10env u0 T) ⟨true, n⟩ 1)
          r first u0 rf =
        (redirTrace n T u0 r first, rf + r, VisitRes.returned) := by
  intro r
  induction r with
  | zero => intro first rf h; simp [goLoop, redirTrace]
  | succ r ih =>
    intro first rf h
    have henv : c10env u0 T u0 = RespKind.redirectTo T := by simp [c10env]
    have henvT : c10env u0 T T = RespKind.plain := by simp [c10env, hne]
    have hvis : goVisit (c10env u0 T) ⟨true, n⟩ 1 T (rf + 1) =
        (Ev.build T :: plainIter n true T, rf + 1, VisitRes.returned) :=
      goVisit_plain (c10env u0 T) ⟨true, n⟩ 0 T (rf + 1) (Or.inr henvT)
    have hmax : ¬ (maxRedirects < rf + 1) := by omega
    have hrest := ih false (rf + 1) (by omega)
    simp only [goLoop, henv, hvis, hmax, if_false, if_true, hrest,
      redirTrace]
    have harith : rf + 1 + r = rf + (r + 1) := by omega
    rw [harith]

theorem redirTrace_count_inc (n : Nat) (T u0 : String) :
    ∀ r first, countEv Ev.inc (redirTrace n T u0 r first) = r := by
  intro r
  induction r with
  | zero => intro first; simp [redirTrace, countEv]
  | succ r ih =>
    intro first
    cases first <;>
      simp [redirTrace, countEv_append, countEv, ih, plainIter_count_inc] <;>
      omega

theorem redirTrace_count_issueT (n : Nat) (T u0 : String)
    (hne : ¬ (T = u0)) :
    ∀ r first, countEv (Ev.issue T) (redirTrace n T u0 r first) = r * n := by
  have hne2 : ¬ (u0 = T) := fun he => hne he.symm
  intro r
  induction r with
  | zero => intro first; simp [redirTrace, countEv]
  | succ r ih =>
    intro first
    cases first <;>
      simp [redirTrace, countEv_append, countEv, ih,
        plainIter_count_issue, hne2, Nat.succ_mul, Nat.mul_comm] <;>
      omega

/-- C10: with `-L` set and repeat count `n`, following a redirect invokes
the full `visit` controller on the `Location` target, including its own
repeat loop: the recursive invocation alone performs `n` exchanges against
the target, with the inter-request delay between them (first three
conjuncts); consequently, over a whole run in which the start URL always
redirects to `T` and `T` responds plainly, the top-level loop follows `n`
redirects and the trace carries `n * n` exchanges against `T` — `n` per
followed redirect, not one. -/
theorem redirect_reenters_repeat_loop (u0 T : String) (hne : ¬ (T = u0))
    (n : Nat) (hn : n ≤ maxRedirects) :
    goVisit (c10env u0 T) ⟨true, n⟩ 1 T 1 =
      (Ev.build T :: plainIter n true T, 1, VisitRes.returned) ∧
    countEv (Ev.issue T) (Ev.build T :: plainIter n true T) = n ∧
    countEv Ev.delay (Ev.build T :: plainIter n true T) = n - 1 ∧
    goVisit (c10env u0 T) ⟨true, n⟩ 2 u0 0 =
      (Ev.build u0 :: redirTrace n T u0 n true, n, VisitRes.returned) ∧
    countEv Ev.inc (Ev.build u0 :: redirTrace n T u0 n true) = n ∧
    countEv (Ev.issue T) (Ev.build u0 :: redirTrace n T u0 n true) =
      n * n := by
  have henvT : c10env u0 T T = RespKind.plain := by simp [c10env, hne]
  refine ⟨goVisit_plain (c10env u0 T) ⟨true, n⟩ 0 T 1 (Or.inr henvT),
    ?_, ?_, ?_, ?_, ?_⟩
  · simp [countEv, plainIter_count_issue]
  · simp [countEv, plainIter_count_delay]
  · have hloop := goLoop_redir u0 T hne n n true 0 (by omega)
    have h2 : goVisit (c10env u0 T) ⟨true, n⟩ 2 u0 0 =
        (Ev.build u0 :: (goLoop (c10env u0 T) ⟨true, n⟩
            (goVisit (c10env u0 T) ⟨true, n⟩ 1) n true u0 0).1,
         (goLoop (c10env u0 T) ⟨true, n⟩
            (goVisit (c10env u0 T) ⟨true, n⟩ 1) n true u0 0).2) := rfl
    rw [h2, hloop]
    simp
  · simp [countEv, redirTrace_count_inc]
  · simp [countEv, redirTrace_count_issueT n T u0 hne, hne]

/-- Witness for C10 at `n = 2`: one followed redirect issues two
exchanges against the redirect target, and the whole run makes four. -/
theorem redirect_reenters_repeat_loop_witness :
    goVisit (c10env ("a") ("b")) ⟨true, 2⟩ 1 ("b") 1 =
      (Ev.build ("b") :: plainIter 2 true ("b"), 1, VisitRes.returned) ∧
    countEv (Ev.issue ("b")) (Ev.build ("b") :: plainIter 2 true ("b")) = 2 ∧
    countEv Ev.delay (Ev.build ("b") :: plainIter 2 true ("b")) = 2 - 1 ∧
    goVisit (c10env ("a") ("b")) ⟨true, 2⟩ 2 ("a") 0 =
      (Ev.build ("a") :: redirTrace 2 ("b") ("a") 2 true, 2,
       VisitRes.returned) ∧
    countEv Ev.inc (Ev.build ("a") :: redirTrace 2 ("b") ("a") 2 true) = 2 ∧
    countEv (Ev.issue ("b"))
      (Ev.build ("a") :: redirTrace 2 ("b") ("a") 2 true) = 2 * 2 :=
  redirect_reenters_repeat_loop ("a") ("b") (by decide) 2 (by decide)

/-- `isRedirect` of `main.go`:
`resp.StatusCode > 299 && resp.StatusCode < 400`. -/
def isRedirect (statusCode : Int) : Bool :=
  decide (299 < statusCode) && decide (statusCode < 400)

/-- How `readResponseBody` ends: `log.Fatalf` (process aborts) or a normal
return carrying the informational message. -/
inductive BodyOutcome where
  | fatalMsg (msg : String)
  | done (msg : String)
deriving DecidableEq, Repr

def BodyOutcome.isFatal : BodyOutcome → Bool
  | BodyOutcome.fatalMsg _ => true
  | BodyOutcome.done _ => false

/-- Result of `readResponseBody`: whether the `io.Copy` drain of the body
was reached, and how the call ended. -/
structure BodyResult where
  drained : Bool
  outcome : BodyOutcome
deriving DecidableEq, Repr

/-- `readResponseBody` of `main.go`.  External collaborators appear as
values: `cdFilename` is `getFilenameFromHeaders(resp.Header)` (empty when
absent), `urlBase` is `path.Base(req.URL.RequestURI())`, `createOk` the
success of `os.Create`, and `copyErr` whether `io.Copy` reports an error
while consuming the body.  Mirrors the source exactly: early return on a
redirect status or a `HEAD` request; with `-O` the filename comes from
the `Content-Disposition` header or the URL path (`-o` is overridden) and
`"/"` is fatal; `os.Create` failure is fatal; an `io.Copy` error is fatal
only when the sink is a file (`w != ioutil.Discard`). -/
def readResponseBody (method : String) (statusCode : Int)
    (saveOutput : Bool) (outputFile : String)
    (cdFilename : String) (urlBase : String)
    (createOk : Bool) (copyErr : Bool) : BodyResult :=
  if isRedirect statusCode = true ∨ method = "HEAD" then
    ⟨false, BodyOutcome.done ("")⟩
  else if saveOutput = true ∨ ¬ (outputFile = "") then
    if saveOutput = true ∧
        (if cdFilename = "" then urlBase else cdFilename) = "/" then
      ⟨false, BodyOutcome.fatalMsg ("No remote filename; specify output filename with -o to save response body")⟩
    else if createOk = false then
      ⟨false, BodyOutcome.fatalMsg ("unable to create file")⟩
    else if copyErr = true then
      ⟨true, BodyOutcome.fatalMsg ("failed to read response body")⟩
    else
      ⟨true, BodyOutcome.done ("Body read")⟩
  else
    ⟨true, BodyOutcome.done ("Body discarded")⟩

/-- C7: in every exchange that does not abort, the response body is
drained iff the method is not `HEAD` and the status is not a redirect
(`300 ≤ code < 400`); and a `HEAD` request never reaches the body drain,
whatever the `-O`/`-o` save options and whatever else happens. -/
theorem body_drained_iff (method : String) (statusCode : Int)
    (saveOutput : Bool) (outputFile : String)
    (cdFilename : String) (urlBase : String) (createOk copyErr : Bool)
    (h : ((readResponseBody method statusCode saveOutput outputFile
      cdFilename urlBase createOk copyErr).outcome).isFatal = false) :
    ((readResponseBody method statusCode saveOutput outputFile
        cdFilename urlBase createOk copyErr).drained = true ↔
      (isRedirect statusCode = false ∧ ¬ (method = "HEAD"))) ∧
    (∀ (st : Int) (so : Bool) (of cd ub : String) (co ce : Bool),
      (readResponseBody ("HEAD") st so of cd ub co ce).drained = false) := by
  constructor
  · by_cases hm : method = "HEAD"
    · have he : readResponseBody method statusCode saveOutput outputFile
          cdFilename urlBase createOk copyErr =
          ⟨false, BodyOutcome.done ("")⟩ := by
        unfold readResponseBody
        rw [if_pos (Or.inr hm)]
      rw [he]
      simp [hm]
    · cases hr : isRedirect statusCode
      · have h1 : ¬ (isRedirect statusCode = true ∨ method = "HEAD") := by
          simp [hr, hm]
        unfold readResponseBody at h ⊢
        rw [if_neg h1] at h ⊢
        split_ifs at h ⊢ with h2 h3 h4 h5 <;>
          simp_all [BodyOutcome.isFatal]
      · have he : readResponseBody method statusCode saveOutput outputFile
            cdFilename urlBase createOk copyErr =
            ⟨false, BodyOutcome.done ("")⟩ := by
          unfold readResponseBody
          rw [if_pos (Or.inl hr)]
        rw [he]
        simp [hr]
  · intro st so of cd ub co ce
    unfold readResponseBody
    split_ifs with h1 h2 h3 h4 h5 <;> simp_all

/-- Witness for C7 at a concrete non-fatal exchange. -/
theorem body_drained_iff_witness :
    ((readResponseBody ("HEAD") 200 true ("x") ("") ("y") true
        false).outcome).isFatal = false ∧
    (((readResponseBody ("HEAD") 200 true ("x") ("") ("y") true
          false).drained = true ↔
        (isRedirect 200 = false ∧ ¬ (("HEAD" : String) = "HEAD"))) ∧
      (∀ (st : Int) (so : Bool) (of cd ub : String) (co ce : Bool),
        (readResponseBody ("HEAD") st so of cd ub co ce).drained = false)) :=
  ⟨by decide,
   body_drained_iff ("HEAD") 200 true ("x") ("") ("y") true false
     (by decide)⟩

/-- Counterexample to C5 as stated: a `GET` exchange with status 200, no
`-O`/`-o` (the body is being discarded), whose body read fails
(`copyErr = true`), returns normally with the message `Body discarded` —
the read failure is not fatal and is silently swallowed (`visit` then
goes on to render the report for the failed exchange). -/
theorem body_read_error_swallowed :
    readResponseBody ("GET") 200 false ("") ("") ("x") true true =
      ⟨true, BodyOutcome.done ("Body discarded")⟩ ∧
    ((readResponseBody ("GET") 200 false ("") ("") ("x") true
        true).outcome).isFatal = false :=
  ⟨by decide, by decide⟩

/-- C5 amended: a failure while draining the response body is fatal
exactly when the body is being written to a file (`-O` or `-o` given and
the earlier filename/creation steps succeeded); when the body is merely
discarded, the copy error is ignored (`err != nil && w != ioutil.Discard`)
and the call returns `Body discarded` as if nothing failed. -/
theorem body_read_error_fatal_only_when_saving (method : String)
    (statusCode : Int) (saveOutput : Bool)
    (outputFile cdFilename urlBase : String)
    (hnr : ¬ (isRedirect statusCode = true ∨ method = "HEAD")) :
    (¬ (saveOutput = true ∨ ¬ (outputFile = "")) →
      readResponseBody method statusCode saveOutput outputFile
        cdFilename urlBase true true =
        ⟨true, BodyOutcome.done ("Body discarded")⟩) ∧
    ((saveOutput = true ∨ ¬ (outputFile = "")) →
      ¬ (saveOutput = true ∧
        (if cdFilename = "" then urlBase else cdFilename) = "/") →
      readResponseBody method statusCode saveOutput outputFile
        cdFilename urlBase true true =
        ⟨true, BodyOutcome.fatalMsg ("failed to read response body")⟩) := by
  constructor
  · intro hsv
    unfold readResponseBody
    rw [if_neg hnr, if_neg hsv]
  · intro hsv hfn
    unfold readResponseBody
    rw [if_neg hnr, if_pos hsv, if_neg hfn, if_neg (by simp), if_pos rfl]

/-- Witness for C5's amended theorem on concrete inputs. -/
theorem body_read_error_fatal_only_when_saving_witness :
    (¬ (isRedirect 200 = true ∨ ("GET" : String) = "HEAD")) ∧
    ((¬ ((false : Bool) = true ∨ ¬ (("" : String) = "")) →
      readResponseBody ("GET") 200 false ("") ("") ("x") true true =
        ⟨true, BodyOutcome.done ("Body discarded")⟩) ∧
    (((false : Bool) = true ∨ ¬ (("" : String) = "")) →
      ¬ ((false : Bool) = true ∧
        (if ("" : String) = "" then ("x" : String) else "") = "/") →
      readResponseBody ("GET") 200 false ("") ("") ("x") true true =
        ⟨true, BodyOutcome.fatalMsg ("failed to read response body")⟩)) :=
  ⟨by decide,
   body_read_error_fatal_only_when_saving ("GET") 200 false ("") ("")
     ("x") (by decide)⟩

/-- The state of the `-cacert` file on disk: unreadable, or readable PEM
bytes from which `x509.CertPool.AppendCertsFromPEM` parses
`parsedCerts` certificates (zero when the content is malformed —
`readCACerts` ignores the boolean result of `AppendCertsFromPEM`). -/
inductive CAFile where
  | unreadable
  | readable (parsedCerts : Nat)
deriving DecidableEq, Repr

/-- `readCACerts` of `main.go`: empty flag means no pool (`nil, nil`);
an unreadable file is an error; otherwise a freshly allocated non-nil
pool holding however many certificates the bytes parsed to (possibly
zero). -/
def readCACerts (filename : String) (file : CAFile) :
    Except String (Option Nat) :=
  if filename = "" then Except.ok none
  else
    match file with
    | CAFile.unreadable =>
      Except.error ("failed to read CA certificate file")
    | CAFile.readable n => Except.ok (some n)

/-- The CA-bundle handling in `visit`: on a `readCACerts` error, log a
warning and continue (the pool stays nil); there is no fatal path.  The
resulting pool becomes `tls.Config.RootCAs`. -/
structure TLSSetup where
  warned : Bool
  rootCAs : Option Nat
deriving DecidableEq, Repr

def visitRootCAs (filename : String) (file : CAFile) : TLSSetup :=
  match readCACerts filename file with
  | Except.error _ => ⟨true, none⟩
  | Except.ok p => ⟨false, p⟩

/-- `crypto/tls` semantics for `tls.Config.RootCAs`: a nil pool means the
system (default) trust roots; a non-nil pool — even an empty one — is
used as the verification root set. -/
inductive TrustRoots where
  | system
  | custom (pool : Nat)
deriving DecidableEq, Repr

def effectiveRoots : Option Nat → TrustRoots
  | none => TrustRoots.system
  | some n => TrustRoots.custom n

/-- Counterexample to C6 as stated: a readable `-cacert` file whose
content is malformed (zero certificates parse) produces no warning and a
non-nil empty pool, so TLS verification runs against that empty pool —
not against the system trust roots. -/
theorem cacert_malformed_not_system_roots :
    (visitRootCAs ("ca.pem") (CAFile.readable 0)).warned = false ∧
    effectiveRoots (visitRootCAs ("ca.pem") (CAFile.readable 0)).rootCAs =
      TrustRoots.custom 0 ∧
    ¬ effectiveRoots
        (visitRootCAs ("ca.pem") (CAFile.readable 0)).rootCAs =
      TrustRoots.system :=
  ⟨by decide, by decide, by decide⟩

/-- C6 amended: a `-cacert` bundle problem is never fatal.  An unreadable
file degrades to a logged warning and the run proceeds with the system
trust roots (nil pool); a readable file is accepted without any warning
and its parse result — even zero certificates, for malformed content —
becomes the verification pool, replacing the system roots. -/
theorem cacert_never_fatal (filename : String) (file : CAFile)
    (h : ¬ (filename = "")) :
    (file = CAFile.unreadable →
      (visitRootCAs filename file).warned = true ∧
      effectiveRoots (visitRootCAs filename file).rootCAs =
        TrustRoots.system) ∧
    (∀ n, file = CAFile.readable n →
      (visitRootCAs filename file).warned = false ∧
      effectiveRoots (visitRootCAs filename file).rootCAs =
        TrustRoots.custom n) := by
  constructor
  · intro hf
    subst hf
    simp [visitRootCAs, readCACerts, effectiveRoots, h]
  · intro n hf
    subst hf
    simp [visitRootCAs, readCACerts, effectiveRoots, h]

/-- Witness for C6's amended theorem at concrete inputs. -/
theorem cacert_never_fatal_witness :
    (¬ (("ca.pem" : String) = "")) ∧
    ((CAFile.unreadable = CAFile.unreadable →
      (visitRootCAs ("ca.pem") CAFile.unreadable).warned = true ∧
      effectiveRoots (visitRootCAs ("ca.pem") CAFile.unreadable).rootCAs =
        TrustRoots.system) ∧
    (∀ n, CAFile.unreadable = CAFile.readable n →
      (visitRootCAs ("ca.pem") CAFile.unreadable).warned = false ∧
      effectiveRoots (visitRootCAs ("ca.pem") CAFile.unreadable).rootCAs =
        TrustRoots.custom n)) :=
  ⟨by decide, cacert_never_fatal ("ca.pem") CAFile.unreadable (by decide)⟩

/-- `strings.HasPrefix` on character lists. -/
def startsWithChars : List Char → List Char → Bool
  | _, [] => true
  | [], _ :: _ => false
  | a :: as, b :: bs => decide (a = b) && startsWithChars as bs

/-- `strings.Contains` on character lists. -/
def hasSubChars (sub : List Char) : List Char → Bool
  | [] => startsWithChars [] sub
  | a :: as => startsWithChars (a :: as) sub || hasSubChars sub as

/-- `strings.HasSuffix` on character lists. -/
def endsWithChars (l sub : List Char) : Bool :=
  startsWithChars l.reverse sub.reverse

/-- What `parseURL` consults of a parsed `net/url.URL`. -/
structure GoURL where
  scheme : String
  host : String
deriving DecidableEq, Repr

/-- The authority component: characters up to the first `/`, `?` or `#`. -/
def takeHost (l : List Char) : List Char :=
  l.takeWhile (fun c => !(decide (c = '/') || decide (c = '?') ||
    decide (c = '#')))

/-- Split at the first occurrence of `sub`, returning the parts before
and after it, or `none` when `sub` does not occur. -/
def splitOnSub (sub : List Char) : List Char → Option (List Char × List Char)
  | [] => if startsWithChars [] sub then some ([], []) else none
  | a :: as =>
    if startsWithChars (a :: as) sub then
      some ([], (a :: as).drop sub.length)
    else
      match splitOnSub sub as with
      | some (pre, post) => some (a :: pre, post)
      | none => none

/-- Model of `net/url.Parse` restricted to what `parseURL` reads
(`Scheme` and `Host`): an input with `://` splits into scheme and
authority; a protocol-relative `//...` input has an empty scheme and the
following authority as host.  Userinfo (`@`) and path/query/fragment
inside the authority are outside this model; the theorems exclude them by
hypothesis. -/
def urlParseModel (s : List Char) : GoURL :=
  match splitOnSub (("://" : String).data) s with
  | some (pre, post) => { scheme := ⟨pre⟩, host := ⟨takeHost post⟩ }
  | none =>
    if startsWithChars s (("//" : String).data) then
      { scheme := "", host := ⟨takeHost (s.drop 2)⟩ }
    else { scheme := "", host := "" }

/-- `parseURL` of `main.go`: prepend `//` when the target has neither a
scheme nor a `//` prefix, parse, and when the scheme is empty default it
to `http`, appending `s` unless the host ends in `:80`. -/
def parseURL (uri : String) : GoURL :=
  let uri2 : List Char :=
    if !(hasSubChars (("://" : String).data) uri.data) &&
        !(startsWithChars uri.data (("//" : String).data)) then
      '/' :: '/' :: uri.data
    else uri.data
  let u := urlParseModel uri2
  if u.scheme = "" then
    { u with scheme :=
        if endsWithChars u.host.data ((":80" : String).data) then "http"
        else "https" }
  else u

theorem startsWith_slashes_false (l : List Char)
    (h : ∀ c ∈ l, ¬ (c = '/')) :
    startsWithChars l (['/', '/']) = false := by
  cases l with
  | nil => rfl
  | cons a as =>
    have ha : ¬ (a = '/') := h a (by simp)
    simp [startsWithChars, ha]

theorem startsWith_srr_false (l : List Char)
    (h : ∀ c ∈ l, ¬ (c = '/')) :
    startsWithChars l ([':', '/', '/']) = false := by
  cases l with
  | nil => rfl
  | cons a as =>
    have has : startsWithChars as (['/', '/']) = false :=
      startsWith_slashes_false as (fun c hc => h c (by simp [hc]))
    simp [startsWithChars, has]

theorem hasSub_srr_false (l : List Char)
    (h : ∀ c ∈ l, ¬ (c = '/')) :
    hasSubChars ([':', '/', '/']) l = false := by
  induction l with
  | nil => rfl
  | cons a as ih =>
    have hs := startsWith_srr_false (a :: as) h
    simp [hasSubChars, hs, ih (fun c hc => h c (by simp [hc]))]

theorem splitOnSub_srr_none (l : List Char)
    (h : ∀ c ∈ l, ¬ (c = '/')) :
    splitOnSub ([':', '/', '/']) l = none := by
  induction l with
  | nil => rfl
  | cons a as ih =>
    have hs := startsWith_srr_false (a :: as) h
    simp [splitOnSub, hs, ih (fun c hc => h c (by simp [hc]))]

theorem takeHost_eq_self (l : List Char)
    (h : ∀ c ∈ l, ¬ (c = '/') ∧ ¬ (c = '?') ∧ ¬ (c = '#')) :
    takeHost l = l := by
  induction l with
  | nil => rfl
  | cons a as ih =>
    have ha := h a (by simp)
    have hrec := ih (fun c hc => h c (by simp [hc]))
    unfold takeHost at hrec ⊢
    simp only [List.takeWhile_cons, ha.1, ha.2.1, ha.2.2, decide_False,
      Bool.or_false, Bool.not_false, if_true, hrec]

/-- C8: a target URL given without a scheme (a bare authority: no `://`,
and no `/`, `?`, `#` or `@` characters) resolves to scheme `https`,
except when the host component explicitly carries port 80 (ends in
`:80`), in which case it resolves to `http`; the authority itself becomes
the host unchanged. -/
theorem schemeless_target_scheme (s : String)
    (h : ∀ c ∈ s.data,
      ¬ (c = '/') ∧ ¬ (c = '?') ∧ ¬ (c = '#') ∧ ¬ (c = '@')) :
    (parseURL s).scheme =
      (if endsWithChars s.data ((":80" : String).data) then "http"
       else "https") ∧
    (parseURL s).host = s := by
  have hs1 : ∀ c ∈ s.data, ¬ (c = '/') := fun c hc => (h c hc).1
  have hpre := startsWith_slashes_false s.data hs1
  have hsub := hasSub_srr_false s.data hs1
  have hsplit2 : splitOnSub ([':', '/', '/']) ('/' :: '/' :: s.data) =
      none := by
    simp [splitOnSub, startsWithChars, splitOnSub_srr_none s.data hs1]
  have hhost : takeHost s.data = s.data :=
    takeHost_eq_self s.data
      (fun c hc => ⟨(h c hc).1, (h c hc).2.1, (h c hc).2.2.1⟩)
  have hdata : (("://" : String)).data = [':', '/', '/'] := rfl
  have hdata2 : (("//" : String)).data = ['/', '/'] := rfl
  unfold parseURL
  rw [hdata, hdata2, hsub, hpre]
  simp only [Bool.not_false, Bool.and_self, if_true, urlParseModel, hdata]
  rw [hsplit2]
  simp [startsWithChars, hhost]

/-- Witness for C8: `example.com` resolves to scheme `https`, while
`example.com:80` resolves to scheme `http`. -/
theorem schemeless_target_scheme_witness :
    ((parseURL ("example.com")).scheme =
        (if endsWithChars (("example.com" : String)).data
            ((":80" : String).data) then "http" else "https") ∧
      (parseURL ("example.com")).host = "example.com") ∧
    ((parseURL ("example.com:80")).scheme =
        (if endsWithChars (("example.com:80" : String)).data
            ((":80" : String).data) then "http" else "https") ∧
      (parseURL ("example.com:80")).host = "example.com:80") ∧
    (parseURL ("example.com")).scheme = "https" ∧
    (parseURL ("example.com:80")).scheme = "http" :=
  ⟨schemeless_target_scheme ("example.com") (by decide),
   schemeless_target_scheme ("example.com:80") (by decide),
   by decide, by decide⟩
